import Mathlib

/-!
Verification of the indicator & feature-pipeline logic of `app.py`

The program computes technical indicators over a daily price series with
pandas (`calculate_sma`, `calculate_rsi`, `calculate_macd`,
`calculate_bollinger_bands`), a moving-average crossover signal, a rule-based
fundamentals recommendation, and a next-day-direction label feeding a
classifier (`main`).

Shallow embedding conventions:
* the price series is the list of closing prices, `List ℚ` (the indicators
  read only the `Close` column);
* a pandas column is a same-length `List` aligned by position; a `NaN` entry
  is `none` in an `Option`-valued column;
* pandas float division is modelled exactly on the values the program can
  produce: `x / 0` with `x > 0` is `+inf` (which saturates the RSI formula to
  `100`), and `0 / 0` is `NaN` (`none`);
* comparisons against `NaN` (`np.where(a > b, …)`, `delta.where(delta > 0, 0)`)
  are `False`, as in numpy/pandas.

Rational arithmetic layer: Batteries marks `Rat.add`, `Rat.mul`, `Rat.sub`,
`Rat.div`, `Rat.inv` `@[irreducible]`, which prevents `decide` from
evaluating concrete inputs.  The embedding therefore uses the reducible
kernels `qadd`, `qsub`, `qmul`, `qdiv`, `qsum` below, each proved equal to
the corresponding standard operation (`qadd_eq` …), so every definition is
still the ordinary rational arithmetic of the source, just spelled through
`mkRat`/`Rat.divInt`.
-/

set_option maxRecDepth 100000

/-- Rational addition through the smart constructor `mkRat`; equal to `+` by
`qadd_eq`, but kernel-reducible so `decide` can evaluate it. -/
def qadd (a b : ℚ) : ℚ := mkRat (a.num * b.den + b.num * a.den) (a.den * b.den)

/-- Rational subtraction through `mkRat`; equal to `-` by `qsub_eq`. -/
def qsub (a b : ℚ) : ℚ := mkRat (a.num * b.den - b.num * a.den) (a.den * b.den)

/-- Rational multiplication through `mkRat`; equal to `*` by `qmul_eq`. -/
def qmul (a b : ℚ) : ℚ := mkRat (a.num * b.num) (a.den * b.den)

/-- Rational inverse through `Rat.divInt`; equal to `⁻¹` by `qinv_eq`. -/
def qinv (a : ℚ) : ℚ := Rat.divInt a.den a.num

/-- Rational division; equal to `/` by `qdiv_eq`. -/
def qdiv (a b : ℚ) : ℚ := qmul a (qinv b)

/-- Sum of a list of rationals via `qadd`; equal to `List.sum` by `qsum_eq`. -/
def qsum : List ℚ → ℚ
  | [] => 0
  | x :: xs => qadd x (qsum xs)

@[simp] theorem qadd_eq (a b : ℚ) : qadd a b = a + b := (Rat.add_def' a b).symm

@[simp] theorem qsub_eq (a b : ℚ) : qsub a b = a - b := (Rat.sub_def' a b).symm

@[simp] theorem qmul_eq (a b : ℚ) : qmul a b = a * b := by
  rw [qmul, ← Rat.normalize_eq_mkRat, ← Rat.mul_def]

@[simp] theorem qinv_eq (a : ℚ) : qinv a = a⁻¹ := (Rat.inv_def a).symm

@[simp] theorem qdiv_eq (a b : ℚ) : qdiv a b = a / b := by
  rw [qdiv, qmul_eq, qinv_eq, div_eq_mul_inv]

@[simp] theorem qsum_eq : ∀ l : List ℚ, qsum l = l.sum
  | [] => rfl
  | x :: xs => by rw [qsum, qadd_eq, qsum_eq xs, List.sum_cons]

/-!
Rolling primitives

`Series.rolling(window=p).mean()` with the default `min_periods = p`: entry
`i` is `NaN` for `i < p - 1`, and otherwise the mean of entries
`i-p+1 … i`.  (pandas rejects `window = 0`; positions are `none` there.)
-/

/-- Embeds `xs.rolling(window=p).mean()` for a NaN-free column `xs`. -/
def rollingMean (xs : List ℚ) (p : ℕ) : List (Option ℚ) :=
  (List.range xs.length).map fun i =>
    if 1 ≤ p ∧ p ≤ i + 1 then
      some (qdiv (qsum ((xs.take (i+1)).drop (i+1-p))) (mkRat p 1))
    else none

/-- Embeds the square of `xs.rolling(window=p).std()`, i.e. the rolling sample variance
(pandas default `ddof = 1`): the variance needs at least two points, so
entries with `p < 2` are `NaN` (`0/0` in pandas). -/
def rollingVar (xs : List ℚ) (p : ℕ) : List (Option ℚ) :=
  (List.range xs.length).map fun i =>
    if 2 ≤ p ∧ p ≤ i + 1 then
      some (qdiv (qsum (((xs.take (i+1)).drop (i+1-p)).map
              (fun x => qmul (qsub x (qdiv (qsum ((xs.take (i+1)).drop (i+1-p))) (mkRat p 1)))
                             (qsub x (qdiv (qsum ((xs.take (i+1)).drop (i+1-p))) (mkRat p 1))))))
            (mkRat (p - 1) 1))
    else none

/-!
Indicator functions (`app.py`, lines 36–56)
-/

/-- Source `calculate_sma`: `data['Close'].rolling(window=period).mean()`. -/
def calculate_sma (close : List ℚ) (period : ℕ) : List (Option ℚ) :=
  rollingMean close period

/-- Embeds `delta = data['Close'].diff(1)` restricted to the positions where it is
defined: the list of consecutive differences, of length `n - 1`. -/
def pairDiffs (close : List ℚ) : List ℚ :=
  List.zipWith (fun a b => qsub b a) close close.tail

/-- Embeds `gain = delta.where(delta > 0, 0)`: position 0 is `0` because
`NaN > 0` is `False` in pandas, so the leading `NaN` of `diff` is replaced. -/
def gains (close : List ℚ) : List ℚ :=
  match close with
  | [] => []
  | _ :: _ => 0 :: (pairDiffs close).map (fun d => if 0 < d then d else 0)

/-- Embeds `loss = -delta.where(delta < 0, 0)`: magnitude of the negative moves,
`0` elsewhere (including position 0, where the `NaN` compares as `False`). -/
def losses (close : List ℚ) : List ℚ :=
  match close with
  | [] => []
  | _ :: _ => 0 :: (pairDiffs close).map (fun d => if d < 0 then qsub 0 d else 0)

/-- Position-wise body of `calculate_rsi`: `rs = gain / loss;
100 - (100 / (1 + rs))` on the rolling means of `gains`/`losses`.  Float
semantics of the division: both rolling means are nonnegative wherever
defined, so `loss = 0 < gain` gives `rs = +inf` hence RSI `= 100`, and
`0 / 0` gives `rs = NaN` hence RSI `= NaN` (`none`). -/
def rsiCell : Option ℚ → Option ℚ → Option ℚ
  | some gm, some lm =>
      if lm = 0 then
        if gm = 0 then none else some 100
      else some (qsub 100 (qdiv 100 (qadd 1 (qdiv gm lm))))
  | _, _ => none

/-- Source `calculate_rsi` (see `rsiCell` for the position-wise formula). -/
def calculate_rsi (close : List ℚ) (period : ℕ) : List (Option ℚ) :=
  List.zipWith rsiCell
    (rollingMean (gains close) period) (rollingMean (losses close) period)

/-- Embeds `ewm(span=s, adjust=False).mean()` continued from a previous smoothed
value `y`: `y_t = (1 - α) * y_{t-1} + α * x_t`. -/
def emaFrom (alpha : ℚ) (y : ℚ) : List ℚ → List ℚ
  | [] => []
  | x :: xs =>
      qadd (qmul (qsub 1 alpha) y) (qmul alpha x) ::
        emaFrom alpha (qadd (qmul (qsub 1 alpha) y) (qmul alpha x)) xs

/-- Embeds `Series.ewm(span=s, adjust=False).mean()`: seeded by the first value. -/
def ema (alpha : ℚ) : List ℚ → List ℚ
  | [] => []
  | x :: xs => x :: emaFrom alpha x xs

/-- Source `calculate_macd`: `ewm(span=12) - ewm(span=26)` on the closes, i.e.
smoothing factors `2/13` and `2/27`. -/
def calculate_macd (close : List ℚ) : List ℚ :=
  List.zipWith (fun a b => qsub a b)
    (ema (mkRat 2 13) close) (ema (mkRat 2 27) close)

/-- Position-wise body of the upper band `sma + (rolling_std * num_std_dev)`,
where the rolling sample standard deviation is the real square root of the
rational rolling variance. -/
noncomputable def bollUpperCell (numStd : ℚ) : Option ℚ → Option ℚ → Option ℝ
  | some m, some v => some ((m : ℝ) + Real.sqrt (v : ℝ) * (numStd : ℝ))
  | _, _ => none

/-- Position-wise body of the lower band `sma - (rolling_std * num_std_dev)`. -/
noncomputable def bollLowerCell (numStd : ℚ) : Option ℚ → Option ℚ → Option ℝ
  | some m, some v => some ((m : ℝ) - Real.sqrt (v : ℝ) * (numStd : ℝ))
  | _, _ => none

/-- Source `calculate_bollinger_bands`: the pair `(upper_band, lower_band)`. -/
noncomputable def calculate_bollinger_bands (close : List ℚ) (window : ℕ) (numStd : ℚ) :
    List (Option ℝ) × List (Option ℝ) :=
  (List.zipWith (bollUpperCell numStd) (rollingMean close window) (rollingVar close window),
   List.zipWith (bollLowerCell numStd) (rollingMean close window) (rollingVar close window))

/-!
Crossover flag and signal (`app.py`, lines 137–139)
-/

/-- Position-wise body of the crossover flag `np.where(SMA_Short > SMA_Long, 1, 0)`:
a total integer value; any comparison involving `NaN` is `False`, hence `0`. -/
def crossCell : Option ℚ → Option ℚ → ℤ
  | some a, some b => if b < a then 1 else 0
  | _, _ => 0

/-- Embeds `stock_data['Crossover'] = np.where(SMA_Short > SMA_Long, 1, 0)`. -/
def crossover (close : List ℚ) (ws wl : ℕ) : List ℤ :=
  List.zipWith crossCell (calculate_sma close ws) (calculate_sma close wl)

/-- Embeds `Series.diff()` of an integer column: `NaN` at position 0, first
difference elsewhere. -/
def seriesDiff (xs : List ℤ) : List (Option ℤ) :=
  (List.range xs.length).map fun i =>
    match i with
    | 0 => none
    | j + 1 => some (xs.getD (j+1) 0 - xs.getD j 0)

/-- Embeds `stock_data['Crossover_Signal'] = stock_data['Crossover'].diff()`. -/
def crossover_signal (close : List ℚ) (ws wl : ℕ) : List (Option ℤ) :=
  seriesDiff (crossover close ws wl)

/-!
Fundamentals recommendation (`app.py`, lines 112–122)

The P/E value is `stock.info.get("trailingPE", "N/A")`: either a number or
the string sentinel `"N/A"`, modelled as `Option ℚ`.  The guard
`!= "N/A"` in both branch conditions is the `some` pattern.
-/

/-- The recommendation chain on the P/E ratio. -/
def recommend : Option ℚ → String × String
  | some pe =>
      if pe < 15 then ("Buy", "Undervalued")
      else if 25 < pe then ("Sell", "Overvalued")
      else ("Hold", "Fairly Valued")
  | none => ("Hold", "Fairly Valued")

/-!
Feature/label pipeline (`app.py`, lines 174–188)
-/

/-- Embeds `np.where(Close.shift(-1) > Close, 1, 0)`: the last row compares the
shifted `NaN`, which is `False`, so it gets `0` (not `NaN`). -/
def target : List ℚ → List ℕ
  | [] => []
  | [_] => [0]
  | a :: b :: rest => (if a < b then 1 else 0) :: target (b :: rest)

/-- One row of the assembled frame: the positional index (the date), the four
feature columns and the label.  `MACD` and `Target` are total columns (`ewm`
and `np.where` never produce `NaN`), so those fields are bare values; the
`dropna` test on them is vacuous. -/
structure Row where
  idx : ℕ
  smaS : Option ℚ
  smaL : Option ℚ
  rsi : Option ℚ
  macd : ℚ
  tgt : ℕ
deriving DecidableEq, Repr

/-- The frame after the indicator assignments of `main` (RSI period is the
hard-coded `20`). -/
def rows (close : List ℚ) (ws wl : ℕ) : List Row :=
  (List.range close.length).map fun i =>
    { idx := i
      smaS := (calculate_sma close ws).getD i none
      smaL := (calculate_sma close wl).getD i none
      rsi := (calculate_rsi close 20).getD i none
      macd := (calculate_macd close).getD i 0
      tgt := (target close).getD i 0 }

/-- Embeds `stock_data.dropna(subset=feature_columns + ['Target'])`: keep the rows
whose fallible columns are all defined (`MACD` and `Target` never are `NaN`). -/
def completeRows (close : List ℚ) (ws wl : ℕ) : List Row :=
  (rows close ws wl).filter fun r => r.smaS.isSome && r.smaL.isSome && r.rsi.isSome

/-- Embeds `features = stock_data[feature_columns]` after the `dropna`. -/
def featureMatrix (close : List ℚ) (ws wl : ℕ) : List (ℚ × ℚ × ℚ × ℚ) :=
  (completeRows close ws wl).map fun r =>
    (r.smaS.getD 0, r.smaL.getD 0, r.rsi.getD 0, r.macd)

/-- Embeds `target = stock_data['Target']` after the `dropna`. -/
def labelVector (close : List ℚ) (ws wl : ℕ) : List ℕ :=
  (completeRows close ws wl).map Row.tgt

/-- Outcome of the guarded tail of `main`: either the informational
"not enough data" message, or the data handed to `train_test_split` /
`train_model`. -/
inductive PredictionResult where
  | insufficientData : PredictionResult
  | trained (features : List (ℚ × ℚ × ℚ × ℚ)) (labels : List ℕ) : PredictionResult
deriving DecidableEq

/-- Embeds the guard `if len(features) < 5` of `main`: write the message, or hand the data to `train_test_split` and `train_model`. -/
def runPrediction (close : List ℚ) (ws wl : ℕ) : PredictionResult :=
  if (featureMatrix close ws wl).length < 5 then PredictionResult.insufficientData
  else PredictionResult.trained (featureMatrix close ws wl) (labelVector close ws wl)

/-!
Helper lemmas
-/

theorem rollingMean_length (xs : List ℚ) (p : ℕ) :
    (rollingMean xs p).length = xs.length := by
  simp [rollingMean]

theorem rollingMean_getElem (xs : List ℚ) (p i : ℕ) (hi : i < xs.length) :
    (rollingMean xs p)[i]? =
      some (if 1 ≤ p ∧ p ≤ i + 1 then
              some (((xs.take (i+1)).drop (i+1-p)).sum / (p : ℚ))
            else none) := by
  simp [rollingMean, List.getElem?_map, List.getElem?_range, hi, Rat.mkRat_eq_div]

theorem rollingVar_length (xs : List ℚ) (p : ℕ) :
    (rollingVar xs p).length = xs.length := by
  simp [rollingVar]

theorem zipWith_getElem (f : α → β → γ) (a : α) (b : β) (l₁ : List α) (l₂ : List β) (i : ℕ)
    (h₁ : i < l₁.length) (h₂ : i < l₂.length) :
    (List.zipWith f l₁ l₂)[i]? = some (f (l₁.getD i a) (l₂.getD i b)) := by
  rw [List.getElem?_zipWith, List.getElem?_eq_getElem h₁, List.getElem?_eq_getElem h₂,
    List.getD_eq_getElem _ _ h₁, List.getD_eq_getElem _ _ h₂]

/-!
Claim theorems
-/

/-- C5: for a price series of length `n ≥ p` and period `p ≥ 1`, the SMA is
defined exactly at positions `i ≥ p - 1`, where it is the arithmetic mean of
the `p` closing prices ending at `i`, and is the undefined sentinel (`none`,
never a zero default) at every position `i < p - 1`. -/
theorem sma_defined_iff_warmup (close : List ℚ) (p : ℕ) (hp : 1 ≤ p)
    (hn : p ≤ close.length) (i : ℕ) (hi : i < close.length) :
    (calculate_sma close p).length = close.length ∧
    (p - 1 ≤ i →
      (calculate_sma close p)[i]? =
        some (some (((close.drop (i + 1 - p)).take p).sum / (p : ℚ)))) ∧
    (i < p - 1 → (calculate_sma close p)[i]? = some none) := by
  refine ⟨rollingMean_length close p, fun h => ?_, fun h => ?_⟩
  · have hw : i + 1 - (i + 1 - p) = p := by omega
    rw [calculate_sma, rollingMean_getElem close p i hi,
      if_pos ⟨hp, by omega⟩, List.drop_take, hw]
  · rw [calculate_sma, rollingMean_getElem close p i hi, if_neg (by omega)]

/-- Witness for C5 at `close = [1,3,2,2,5]`, `p = 2`, `i = 3`. -/
theorem sma_defined_iff_warmup_witness :
    (calculate_sma [1,3,2,2,5] 2)[3]? =
      some (some (((([1,3,2,2,5] : List ℚ).drop 2).take 2).sum / ((2 : ℕ) : ℚ))) :=
  (sma_defined_iff_warmup [1,3,2,2,5] 2 (by decide) (by decide) 3 (by decide)).2.1 (by decide)

/-- C8: the recommendation is a total function of the P/E value: `Buy` below
15, `Sell` above 25, and `Hold` both on `[15, 25]` and on the unavailable
(`"N/A"`) sentinel, which is handled as a value, not an error. -/
theorem recommend_total_rule :
    (∀ pe : ℚ, pe < 15 → recommend (some pe) = ("Buy", "Undervalued")) ∧
    (∀ pe : ℚ, 25 < pe → recommend (some pe) = ("Sell", "Overvalued")) ∧
    (∀ pe : ℚ, 15 ≤ pe → pe ≤ 25 → recommend (some pe) = ("Hold", "Fairly Valued")) ∧
    recommend none = ("Hold", "Fairly Valued") := by
  refine ⟨fun pe h => ?_, fun pe h => ?_, fun pe h1 h2 => ?_, rfl⟩
  · rw [recommend, if_pos h]
  · rw [recommend, if_neg (by linarith), if_pos h]
  · rw [recommend, if_neg (by linarith), if_neg (by linarith)]

/-- Witness for C8 at the spec's four sample points 10, 20, 30, unavailable. -/
theorem recommend_total_rule_witness :
    recommend (some 10) = ("Buy", "Undervalued") ∧
    recommend (some 30) = ("Sell", "Overvalued") ∧
    recommend (some 20) = ("Hold", "Fairly Valued") ∧
    recommend none = ("Hold", "Fairly Valued") :=
  ⟨recommend_total_rule.1 10 (by decide),
   recommend_total_rule.2.1 30 (by decide),
   recommend_total_rule.2.2.1 20 (by decide) (by decide),
   recommend_total_rule.2.2.2⟩

/-- C4: with fewer than 5 complete rows the pipeline yields the informational
insufficient-data result and never reaches the split/fit branch; with at
least 5 it hands the feature matrix and label vector to split/fit. -/
theorem insufficient_data_guard (close : List ℚ) (ws wl : ℕ) :
    ((featureMatrix close ws wl).length < 5 →
        runPrediction close ws wl = PredictionResult.insufficientData) ∧
    (5 ≤ (featureMatrix close ws wl).length →
        runPrediction close ws wl =
          PredictionResult.trained (featureMatrix close ws wl) (labelVector close ws wl)) := by
  constructor
  · intro h
    rw [runPrediction, if_pos h]
  · intro h
    rw [runPrediction, if_neg (by omega)]

/-- Witness for C4: a 3-row series falls in the insufficient-data branch, a
24-row strictly increasing series (5 complete rows) reaches the split/fit
branch. -/
theorem insufficient_data_guard_witness :
    runPrediction [1,2,3] 1 1 = PredictionResult.insufficientData ∧
    runPrediction ((List.range 24).map (fun i => mkRat i 1)) 1 1 =
      PredictionResult.trained
        (featureMatrix ((List.range 24).map (fun i => mkRat i 1)) 1 1)
        (labelVector ((List.range 24).map (fun i => mkRat i 1)) 1 1) :=
  ⟨(insufficient_data_guard [1,2,3] 1 1).1 (by decide),
   (insufficient_data_guard ((List.range 24).map (fun i => mkRat i 1)) 1 1).2 (by decide)⟩

theorem emaFrom_length (alpha : ℚ) : ∀ (xs : List ℚ) (y : ℚ),
    (emaFrom alpha y xs).length = xs.length
  | [], _ => rfl
  | _ :: rest, y => by
      rw [emaFrom, List.length_cons, List.length_cons, emaFrom_length alpha rest]

theorem ema_length (alpha : ℚ) : ∀ close : List ℚ, (ema alpha close).length = close.length
  | [] => rfl
  | x :: rest => by rw [ema, List.length_cons, List.length_cons, emaFrom_length]

theorem emaFrom_getD_succ (alpha : ℚ) : ∀ (xs : List ℚ) (y : ℚ) (i : ℕ),
    i + 1 < xs.length →
    (emaFrom alpha y xs).getD (i+1) 0 =
      (1 - alpha) * (emaFrom alpha y xs).getD i 0 + alpha * xs.getD (i+1) 0
  | [], _, _, h => by simp at h
  | x :: rest, y, 0, h => by
      match rest, h with
      | z :: rest2, _ => simp [emaFrom]
  | x :: rest, y, i + 1, h => by
      have ih := emaFrom_getD_succ alpha rest (qadd (qmul (qsub 1 alpha) y) (qmul alpha x))
        i (by simpa using h)
      simpa [emaFrom] using ih

theorem ema_getD_succ (alpha : ℚ) (close : List ℚ) (i : ℕ) (h : i + 1 < close.length) :
    (ema alpha close).getD (i+1) 0 =
      (1 - alpha) * (ema alpha close).getD i 0 + alpha * close.getD (i+1) 0 := by
  match close, h with
  | x :: rest, h =>
    match i with
    | 0 =>
        match rest, h with
        | z :: rest2, _ => simp [ema, emaFrom]
    | j + 1 =>
        have hrec := emaFrom_getD_succ alpha rest x j (by simpa using h)
        simpa [ema] using hrec

/-- Specification-side EMA, written from the spec's words: the standard
non-adjusted recursive exponential moving average with smoothing factor
`α = 2 / (span + 1)`, seeded by the first closing value. -/
def emaSpec (span : ℕ) (close : List ℚ) : ℕ → ℚ
  | 0 => close.headI
  | i + 1 => (1 - 2 / ((span : ℚ) + 1)) * emaSpec span close i
      + (2 / ((span : ℚ) + 1)) * close.getD (i+1) 0

theorem ema_eq_emaSpec (span : ℕ) (close : List ℚ) (i : ℕ) (hi : i < close.length) :
    (ema (2 / ((span : ℚ) + 1)) close).getD i 0 = emaSpec span close i := by
  induction i with
  | zero =>
      match close, hi with
      | x :: rest, _ => simp [ema, emaSpec]
  | succ j ih =>
      rw [ema_getD_succ _ _ _ hi, emaSpec, ih (by omega)]

/-- C3: the MACD column equals, at every position including the first, the
span-12 EMA minus the span-26 EMA of the closing prices, each the standard
non-adjusted recursion with `α = 2/13` resp. `α = 2/27` seeded by the first
close; the column is total (same length as the input, no undefined entry). -/
theorem macd_eq_ema12_sub_ema26 (close : List ℚ) :
    (calculate_macd close).length = close.length ∧
    ∀ i, i < close.length →
      (calculate_macd close)[i]? = some (emaSpec 12 close i - emaSpec 26 close i) := by
  have h12 : (mkRat 2 13 : ℚ) = 2 / (((12 : ℕ) : ℚ) + 1) := by
    rw [Rat.mkRat_eq_div]; norm_num
  have h26 : (mkRat 2 27 : ℚ) = 2 / (((26 : ℕ) : ℚ) + 1) := by
    rw [Rat.mkRat_eq_div]; norm_num
  constructor
  · rw [calculate_macd, List.length_zipWith, ema_length, ema_length, Nat.min_self]
  · intro i hi
    rw [calculate_macd,
      zipWith_getElem _ 0 0 _ _ i (by rw [ema_length]; exact hi) (by rw [ema_length]; exact hi),
      qsub_eq, h12, h26, ema_eq_emaSpec 12 close i hi, ema_eq_emaSpec 26 close i hi]

/-- Witness for C3 at `close = [1,3,2]`, `i = 2`. -/
theorem macd_eq_ema12_sub_ema26_witness :
    (calculate_macd [1,3,2])[2]? = some (emaSpec 12 [1,3,2] 2 - emaSpec 26 [1,3,2] 2) :=
  (macd_eq_ema12_sub_ema26 [1,3,2]).2 2 (by decide)

theorem mem_of_mem_window {xs : List ℚ} {m n : ℕ} {x : ℚ}
    (hx : x ∈ (xs.take n).drop m) : x ∈ xs :=
  List.mem_of_mem_take (List.mem_of_mem_drop hx)

theorem gains_nonneg (close : List ℚ) : ∀ x ∈ gains close, 0 ≤ x := by
  intro x hx
  match close, hx with
  | c :: rest, hx =>
      rw [gains] at hx
      rcases List.mem_cons.1 hx with h | h
      · simp [h]
      · obtain ⟨d, -, rfl⟩ := List.mem_map.1 h
        split_ifs with hd
        · exact le_of_lt hd
        · exact le_refl 0

theorem losses_nonneg (close : List ℚ) : ∀ x ∈ losses close, 0 ≤ x := by
  intro x hx
  match close, hx with
  | c :: rest, hx =>
      rw [losses] at hx
      rcases List.mem_cons.1 hx with h | h
      · simp [h]
      · obtain ⟨d, -, rfl⟩ := List.mem_map.1 h
        split_ifs with hd
        · rw [qsub_eq]
          linarith
        · exact le_refl 0

theorem rollingMean_nonneg {xs : List ℚ} {p i : ℕ} {v : ℚ}
    (hxs : ∀ x ∈ xs, 0 ≤ x) (h : (rollingMean xs p)[i]? = some (some v)) : 0 ≤ v := by
  by_cases hi : i < xs.length
  · rw [rollingMean_getElem xs p i hi] at h
    split_ifs at h with hc
    · obtain rfl : ((xs.take (i+1)).drop (i+1-p)).sum / (p : ℚ) = v := by
        injection h with h; injection h
      apply div_nonneg
      · exact List.sum_nonneg fun x hx => hxs x (mem_of_mem_window hx)
      · positivity
    · exact absurd h (by simp)
  · rw [List.getElem?_eq_none (by rw [rollingMean_length]; omega)] at h
    exact absurd h (by simp)

theorem rsi_getElem_some_inv (close : List ℚ) (p i : ℕ) (v : ℚ)
    (h : (calculate_rsi close p)[i]? = some (some v)) :
    ∃ gm lm, (rollingMean (gains close) p)[i]? = some (some gm) ∧
      (rollingMean (losses close) p)[i]? = some (some lm) ∧
      ((lm = 0 ∧ gm ≠ 0 ∧ v = 100) ∨ (lm ≠ 0 ∧ v = 100 - 100 / (1 + gm / lm))) := by
  rw [calculate_rsi, List.getElem?_zipWith] at h
  rcases hA : (rollingMean (gains close) p)[i]? with _ | go <;> rw [hA] at h
  · exact absurd h (by simp)
  rcases hB : (rollingMean (losses close) p)[i]? with _ | lo <;> rw [hB] at h
  · exact absurd h (by simp)
  simp only [Option.some.injEq] at h
  rcases go with _ | gm
  · exact Option.noConfusion h
  rcases lo with _ | lm
  · exact Option.noConfusion h
  refine ⟨gm, lm, rfl, rfl, ?_⟩
  simp only [rsiCell] at h
  split_ifs at h with hlm hgm
  · refine Or.inl ⟨hlm, hgm, ?_⟩
    injection h with h
    exact h.symm
  · refine Or.inr ⟨hlm, ?_⟩
    injection h with h
    rw [← h, qsub_eq, qdiv_eq, qadd_eq, qdiv_eq]

/-- C2: wherever the RSI is defined its value lies in `[0, 100]`; and at every
position where the rolling loss mean is zero while the rolling gain mean is
strictly positive, the RSI is exactly `100` (the zero denominator saturates
instead of raising). -/
theorem rsi_range_and_saturation (close : List ℚ) (p : ℕ) :
    (∀ (i : ℕ) (v : ℚ), (calculate_rsi close p)[i]? = some (some v) → 0 ≤ v ∧ v ≤ 100) ∧
    (∀ (i : ℕ) (g : ℚ), (rollingMean (losses close) p)[i]? = some (some (0 : ℚ)) →
      (rollingMean (gains close) p)[i]? = some (some g) → 0 < g →
      (calculate_rsi close p)[i]? = some (some 100)) := by
  constructor
  · intro i v h
    obtain ⟨gm, lm, hA, hB, hcase⟩ := rsi_getElem_some_inv close p i v h
    have hgm : 0 ≤ gm := rollingMean_nonneg (gains_nonneg close) hA
    have hlm : 0 ≤ lm := rollingMean_nonneg (losses_nonneg close) hB
    rcases hcase with ⟨-, -, rfl⟩ | ⟨hlm0, rfl⟩
    · norm_num
    · have hlmpos : 0 < lm := lt_of_le_of_ne hlm (Ne.symm hlm0)
      have hr : 0 ≤ gm / lm := div_nonneg hgm hlm
      have h1r : (0 : ℚ) < 1 + gm / lm := by linarith
      have hb1 : 100 / (1 + gm / lm) ≤ 100 := div_le_self (by norm_num) (by linarith)
      have hb2 : 0 < 100 / (1 + gm / lm) := div_pos (by norm_num) h1r
      constructor <;> linarith
  · intro i g hl hg hgpos
    have hiA : i < (rollingMean (gains close) p).length := by
      by_contra hi
      rw [List.getElem?_eq_none (by omega)] at hg
      exact absurd hg (by simp)
    have hiB : i < (rollingMean (losses close) p).length := by
      by_contra hi
      rw [List.getElem?_eq_none (by omega)] at hl
      exact absurd hl (by simp)
    rw [calculate_rsi, zipWith_getElem rsiCell (none : Option ℚ) (none : Option ℚ) _ _ i hiA hiB,
      List.getD_eq_getElem _ _ hiA, List.getD_eq_getElem _ _ hiB]
    rw [List.getElem?_eq_getElem hiA] at hg
    rw [List.getElem?_eq_getElem hiB] at hl
    injection hg with hg
    injection hl with hl
    rw [hg, hl]
    simp only [rsiCell]
    rw [if_pos trivial, if_neg (ne_of_gt hgpos)]

/-- Witness for C2 at `close = [1,3,2,2,5]`, `p = 2`: the range part at
position 2 (value `200/3`) and the saturation part at position 1. -/
theorem rsi_range_and_saturation_witness :
    (0 ≤ mkRat 200 3 ∧ mkRat 200 3 ≤ 100) ∧
    (calculate_rsi [1,3,2,2,5] 2)[1]? = some (some 100) :=
  ⟨(rsi_range_and_saturation [1,3,2,2,5] 2).1 2 (mkRat 200 3) (by decide),
   (rsi_range_and_saturation [1,3,2,2,5] 2).2 1 1 (by decide) (by decide) (by decide)⟩

/-- C10: at every position where the rolling means of both gains and losses
are zero, the RSI entry is the undefined sentinel (`0 / 0` is `NaN`), not
`100` nor any other number; hence a defined RSI value rules out such a
position. -/
theorem rsi_undefined_when_flat (close : List ℚ) (p : ℕ) :
    (∀ i : ℕ, (rollingMean (gains close) p)[i]? = some (some (0 : ℚ)) →
      (rollingMean (losses close) p)[i]? = some (some (0 : ℚ)) →
      (calculate_rsi close p)[i]? = some none) ∧
    (∀ (i : ℕ) (v : ℚ), (calculate_rsi close p)[i]? = some (some v) →
      ¬((rollingMean (gains close) p)[i]? = some (some (0 : ℚ)) ∧
        (rollingMean (losses close) p)[i]? = some (some (0 : ℚ)))) := by
  have key : ∀ i : ℕ, (rollingMean (gains close) p)[i]? = some (some (0 : ℚ)) →
      (rollingMean (losses close) p)[i]? = some (some (0 : ℚ)) →
      (calculate_rsi close p)[i]? = some none := by
    intro i hg hl
    have hiA : i < (rollingMean (gains close) p).length := by
      by_contra hi
      rw [List.getElem?_eq_none (by omega)] at hg
      exact absurd hg (by simp)
    have hiB : i < (rollingMean (losses close) p).length := by
      by_contra hi
      rw [List.getElem?_eq_none (by omega)] at hl
      exact absurd hl (by simp)
    rw [calculate_rsi, zipWith_getElem rsiCell (none : Option ℚ) (none : Option ℚ) _ _ i hiA hiB,
      List.getD_eq_getElem _ _ hiA, List.getD_eq_getElem _ _ hiB]
    rw [List.getElem?_eq_getElem hiA] at hg
    rw [List.getElem?_eq_getElem hiB] at hl
    injection hg with hg
    injection hl with hl
    rw [hg, hl]
    simp only [rsiCell]
    rw [if_pos trivial, if_pos trivial]
  refine ⟨key, fun i v hv ⟨hg, hl⟩ => ?_⟩
  rw [key i hg hl] at hv
  exact absurd (Option.some.inj hv) (by simp)

/-- Witness for C10 on a constant series (every change is zero): at the first
position where the rolling means exist, the RSI is undefined. -/
theorem rsi_undefined_when_flat_witness :
    (calculate_rsi (List.replicate 21 5) 20)[19]? = some none :=
  (rsi_undefined_when_flat (List.replicate 21 5) 20).1 19 (by decide) (by decide)

theorem crossover_def (close : List ℚ) (ws wl : ℕ) :
    crossover close ws wl =
      List.zipWith crossCell (calculate_sma close ws) (calculate_sma close wl) := rfl

theorem crossover_length (close : List ℚ) (ws wl : ℕ) :
    (crossover close ws wl).length = close.length := by
  rw [crossover_def, List.length_zipWith, calculate_sma, calculate_sma,
    rollingMean_length, rollingMean_length, Nat.min_self]

theorem crossCell_none_left (b : Option ℚ) : crossCell none b = 0 := rfl

theorem crossCell_none_right (a : Option ℚ) : crossCell a none = 0 := by
  rcases a with _ | x <;> rfl

theorem crossCell_cases (a b : Option ℚ) : crossCell a b = 0 ∨ crossCell a b = 1 := by
  rcases a with _ | x <;> rcases b with _ | y
  · exact Or.inl rfl
  · exact Or.inl rfl
  · exact Or.inl rfl
  · rw [crossCell]
    split_ifs
    · exact Or.inr rfl
    · exact Or.inl rfl

theorem zipWith_getD (f : α → β → γ) (da : α) (db : β) (dc : γ)
    (l₁ : List α) (l₂ : List β) (i : ℕ) (h₁ : i < l₁.length) (h₂ : i < l₂.length) :
    (List.zipWith f l₁ l₂).getD i dc = f (l₁.getD i da) (l₂.getD i db) := by
  rw [List.getD_eq_getElem?_getD, List.getElem?_zipWith,
    List.getElem?_eq_getElem h₁, List.getElem?_eq_getElem h₂,
    List.getD_eq_getElem _ _ h₁, List.getD_eq_getElem _ _ h₂]
  rfl

theorem crossover_getD_cases (close : List ℚ) (ws wl : ℕ) (i : ℕ) :
    (crossover close ws wl).getD i 0 = 0 ∨ (crossover close ws wl).getD i 0 = 1 := by
  by_cases hi : i < close.length
  · have hw : i < (calculate_sma close ws).length := by
      rw [calculate_sma, rollingMean_length]; omega
    have hl : i < (calculate_sma close wl).length := by
      rw [calculate_sma, rollingMean_length]; omega
    rw [crossover_def, zipWith_getD crossCell none none 0 _ _ i hw hl]
    exact crossCell_cases _ _
  · rw [List.getD_eq_default _ _ (by rw [crossover_length]; omega)]
    exact Or.inl rfl

theorem seriesDiff_length (xs : List ℤ) : (seriesDiff xs).length = xs.length := by
  simp [seriesDiff]

theorem seriesDiff_getElem_zero (xs : List ℤ) (h : 0 < xs.length) :
    (seriesDiff xs)[0]? = some none := by
  simp [seriesDiff, List.getElem?_map, List.getElem?_range, h]

theorem seriesDiff_getElem_succ (xs : List ℤ) (i : ℕ) (h : i + 1 < xs.length) :
    (seriesDiff xs)[i+1]? = some (some (xs.getD (i+1) 0 - xs.getD i 0)) := by
  simp [seriesDiff, List.getElem?_map, List.getElem?_range, h]

/-- C6: the crossover signal is undefined at position 0, and at every later
position it carries a value that is `1` exactly on a `0 → 1` transition of
the crossover flag, `-1` exactly on a `1 → 0` transition, and `0` exactly
when the flag does not change. -/
theorem crossover_signal_edges (close : List ℚ) (ws wl : ℕ) :
    ((crossover_signal close ws wl).length = close.length) ∧
    (0 < close.length → (crossover_signal close ws wl)[0]? = some none) ∧
    (∀ i : ℕ, i + 1 < close.length →
      ∃ v : ℤ, (crossover_signal close ws wl)[i+1]? = some (some v) ∧
        (v = 1 ↔ (crossover close ws wl).getD i 0 = 0 ∧
                 (crossover close ws wl).getD (i+1) 0 = 1) ∧
        (v = -1 ↔ (crossover close ws wl).getD i 0 = 1 ∧
                  (crossover close ws wl).getD (i+1) 0 = 0) ∧
        (v = 0 ↔ (crossover close ws wl).getD i 0 =
                 (crossover close ws wl).getD (i+1) 0)) := by
  refine ⟨by rw [crossover_signal, seriesDiff_length, crossover_length],
    fun h => ?_, fun i hi => ?_⟩
  · exact seriesDiff_getElem_zero _ (by rw [crossover_length]; omega)
  · refine ⟨(crossover close ws wl).getD (i+1) 0 - (crossover close ws wl).getD i 0,
      seriesDiff_getElem_succ _ i (by rw [crossover_length]; omega), ?_⟩
    obtain ha | ha := crossover_getD_cases close ws wl i <;>
      obtain hb | hb := crossover_getD_cases close ws wl (i+1) <;>
      rw [ha, hb] <;> refine ⟨?_, ?_, ?_⟩ <;> omega

/-- Witness for C6 at `close = [1,3,2,2,5]`, `ws = 1`, `wl = 2`: undefined
head, and the bullish edge at position 1. -/
theorem crossover_signal_edges_witness :
    (crossover_signal [1,3,2,2,5] 1 2)[0]? = some none ∧
    ∃ v : ℤ, (crossover_signal [1,3,2,2,5] 1 2)[1]? = some (some v) ∧
      (v = 1 ↔ (crossover [1,3,2,2,5] 1 2).getD 0 0 = 0 ∧
               (crossover [1,3,2,2,5] 1 2).getD 1 0 = 1) ∧
      (v = -1 ↔ (crossover [1,3,2,2,5] 1 2).getD 0 0 = 1 ∧
                (crossover [1,3,2,2,5] 1 2).getD 1 0 = 0) ∧
      (v = 0 ↔ (crossover [1,3,2,2,5] 1 2).getD 0 0 =
               (crossover [1,3,2,2,5] 1 2).getD 1 0) :=
  ⟨(crossover_signal_edges [1,3,2,2,5] 1 2).2.1 (by decide),
   (crossover_signal_edges [1,3,2,2,5] 1 2).2.2 0 (by decide)⟩

/-- C9: the crossover flag column is total with values in `{0, 1}`; it is `0`
(not an undefined sentinel) wherever either moving average is still
undefined, because a comparison against `NaN` is `False`; consequently at a
position whose predecessor is still in the warm-up region the signal is the
flag value itself (diffed against the flag `0`), not undefined. -/
theorem crossover_flag_warmup_zero (close : List ℚ) (ws wl : ℕ) :
    ((crossover close ws wl).length = close.length) ∧
    (∀ i : ℕ, (crossover close ws wl).getD i 0 = 0 ∨
              (crossover close ws wl).getD i 0 = 1) ∧
    (∀ i : ℕ, i < close.length →
      ((calculate_sma close ws)[i]? = some none ∨ (calculate_sma close wl)[i]? = some none) →
      (crossover close ws wl).getD i 0 = 0) ∧
    (∀ i : ℕ, i + 1 < close.length →
      ((calculate_sma close ws)[i]? = some none ∨ (calculate_sma close wl)[i]? = some none) →
      (crossover_signal close ws wl)[i+1]? =
        some (some ((crossover close ws wl).getD (i+1) 0))) := by
  have hzero : ∀ i : ℕ, i < close.length →
      ((calculate_sma close ws)[i]? = some none ∨ (calculate_sma close wl)[i]? = some none) →
      (crossover close ws wl).getD i 0 = 0 := by
    intro i hi hnone
    have hw : i < (calculate_sma close ws).length := by
      rw [calculate_sma, rollingMean_length]; omega
    have hl : i < (calculate_sma close wl).length := by
      rw [calculate_sma, rollingMean_length]; omega
    rw [crossover_def, zipWith_getD crossCell none none 0 _ _ i hw hl]
    rcases hnone with hn | hn
    · have hA : (calculate_sma close ws).getD i (none : Option ℚ) = none := by
        rw [List.getD_eq_getElem?_getD, hn]
        rfl
      rw [hA]
      exact crossCell_none_left _
    · have hB : (calculate_sma close wl).getD i (none : Option ℚ) = none := by
        rw [List.getD_eq_getElem?_getD, hn]
        rfl
      rw [hB]
      exact crossCell_none_right _
  refine ⟨crossover_length close ws wl, fun i => crossover_getD_cases close ws wl i,
    hzero, fun i hi hnone => ?_⟩
  rw [crossover_signal, seriesDiff_getElem_succ _ i (by rw [crossover_length]; omega),
    hzero i (by omega) hnone, sub_zero]

/-- Witness for C9 at `close = [1,3,2,2,5]`, `ws = 1`, `wl = 2`: position 0 is
in the long warm-up, its flag is 0, and the signal at position 1 equals the
flag there. -/
theorem crossover_flag_warmup_zero_witness :
    (crossover [1,3,2,2,5] 1 2).getD 0 0 = 0 ∧
    (crossover_signal [1,3,2,2,5] 1 2)[1]? =
      some (some ((crossover [1,3,2,2,5] 1 2).getD 1 0)) :=
  ⟨(crossover_flag_warmup_zero [1,3,2,2,5] 1 2).2.2.1 0 (by decide) (Or.inr (by decide)),
   (crossover_flag_warmup_zero [1,3,2,2,5] 1 2).2.2.2 0 (by decide) (Or.inr (by decide))⟩

/-- C7: for every nonnegative band width the upper band dominates the rolling
mean and the rolling mean dominates the lower band wherever both bands are
defined, and the two bands are sequences aligned with the input. -/
theorem bollinger_band_order (close : List ℚ) (w : ℕ) (k : ℚ) (hk : 0 ≤ k) :
    ((calculate_bollinger_bands close w k).1.length = close.length ∧
     (calculate_bollinger_bands close w k).2.length = close.length) ∧
    (∀ (i : ℕ) (u l : ℝ),
      (calculate_bollinger_bands close w k).1[i]? = some (some u) →
      (calculate_bollinger_bands close w k).2[i]? = some (some l) →
      ∃ m : ℚ, (rollingMean close w)[i]? = some (some m) ∧
        l ≤ (m : ℝ) ∧ (m : ℝ) ≤ u) := by
  constructor
  · constructor <;>
      simp [calculate_bollinger_bands, List.length_zipWith, rollingMean_length,
        rollingVar_length]
  · intro i u l hu hl
    simp only [calculate_bollinger_bands] at hu hl
    rw [List.getElem?_zipWith] at hu hl
    rcases hA : (rollingMean close w)[i]? with _ | mo <;> rw [hA] at hu hl
    · exact absurd hu (by simp)
    rcases hB : (rollingVar close w)[i]? with _ | vo <;> rw [hB] at hu hl
    · exact absurd hu (by simp)
    simp only [Option.some.injEq] at hu hl
    rcases mo with _ | m
    · exact Option.noConfusion hu
    rcases vo with _ | v
    · exact Option.noConfusion hu
    simp only [bollUpperCell, Option.some.injEq] at hu
    simp only [bollLowerCell, Option.some.injEq] at hl
    have hs : 0 ≤ Real.sqrt (v : ℝ) * (k : ℝ) :=
      mul_nonneg (Real.sqrt_nonneg _) (by exact_mod_cast hk)
    refine ⟨m, rfl, ?_, ?_⟩
    · rw [← hl]
      linarith
    · rw [← hu]
      linarith

/-- Witness for C7 at `close = [1,1]`, `window = 2`, `num_std = 2`: the
variance is 0, both bands equal the mean 1. -/
theorem bollinger_band_order_witness :
    (0 : ℚ) ≤ 2 ∧
    ∃ m : ℚ, (rollingMean [1,1] 2)[1]? = some (some m) ∧
      ((1 : ℝ) ≤ (m : ℝ) ∧ (m : ℝ) ≤ (1 : ℝ)) := by
  have h1 : rollingMean [1,1] 2 = [none, some 1] := by decide
  have h2 : rollingVar [1,1] 2 = [none, some 0] := by decide
  refine ⟨by decide, (bollinger_band_order [1,1] 2 2 (by decide)).2 1 1 1 ?_ ?_⟩
  · simp only [calculate_bollinger_bands, h1, h2]
    norm_num [bollUpperCell]
  · simp only [calculate_bollinger_bands, h1, h2]
    norm_num [bollLowerCell]

theorem target_length : ∀ close : List ℚ, (target close).length = close.length
  | [] => rfl
  | [_] => rfl
  | a :: b :: rest => by
      rw [target, List.length_cons, target_length (b :: rest)]
      simp

theorem target_getElem : ∀ (close : List ℚ) (i : ℕ), i + 1 < close.length →
    (target close)[i]? = some (if close.getD i 0 < close.getD (i+1) 0 then 1 else 0)
  | [], i, h => absurd h (by simp)
  | [_], i, h => absurd h (by simp)
  | a :: b :: rest, 0, _ => by simp [target]
  | a :: b :: rest, i + 1, h => by
      have ih := target_getElem (b :: rest) i (by simpa using h)
      simpa [target] using ih

theorem target_getLast : ∀ close : List ℚ, close ≠ [] → (target close).getLast? = some 0
  | [_], _ => rfl
  | a :: b :: rest, _ => by
      rw [target, List.getLast?_cons, target_getLast (b :: rest) (by simp)]
      rfl

/-- C1 counterexample: on the strictly increasing 50-day series `0,1,…,49`
with windows 10 and 50, the only row surviving the `dropna` is the final row
(index 49): its label is 0, not undefined, and it does appear in the feature
matrix and label vector. -/
theorem final_row_reaches_features :
    (((List.range 50).map (fun i => mkRat i 1)) : List ℚ).length = 50 ∧
    (completeRows ((List.range 50).map (fun i => mkRat i 1)) 10 50).map Row.idx = [49] ∧
    labelVector ((List.range 50).map (fun i => mkRat i 1)) 10 50 = [0] ∧
    (featureMatrix ((List.range 50).map (fun i => mkRat i 1)) 10 50).length = 1 := by
  decide

/-- C1 (amended): every row with a successor gets label 1 when the next close
is higher and 0 otherwise; the final row gets label 0 (the shifted `NaN`
comparison is `False`, so `np.where` yields 0, not an undefined value), and
the row filter drops a row only for an undefined indicator value, never for
its label, so the final row is kept whenever its indicators are defined. -/
theorem label_next_day_rule (close : List ℚ) (ws wl : ℕ) :
    ((target close).length = close.length) ∧
    (∀ i : ℕ, i + 1 < close.length →
      (target close)[i]? = some (if close.getD i 0 < close.getD (i+1) 0 then 1 else 0)) ∧
    (close ≠ [] → (target close).getLast? = some 0) ∧
    (∀ r : Row, r ∈ completeRows close ws wl ↔
      r ∈ rows close ws wl ∧
        r.smaS.isSome = true ∧ r.smaL.isSome = true ∧ r.rsi.isSome = true) := by
  refine ⟨target_length close, fun i h => target_getElem close i h,
    fun h => target_getLast close h, fun r => ?_⟩
  rw [completeRows, List.mem_filter]
  simp [Bool.and_eq_true, and_assoc]

/-- Witness for C1 (amended) at `close = [1,3,2,2,5]`. -/
theorem label_next_day_rule_witness :
    (target [1,3,2,2,5])[0]? =
      some (if ([1,3,2,2,5] : List ℚ).getD 0 0 < ([1,3,2,2,5] : List ℚ).getD 1 0
            then 1 else 0) ∧
    (target [1,3,2,2,5]).getLast? = some 0 :=
  ⟨(label_next_day_rule [1,3,2,2,5] 1 2).2.1 0 (by decide),
   (label_next_day_rule [1,3,2,2,5] 1 2).2.2.1 (by decide)⟩
